import Mathlib

/-!
Verification of the bhttp HTTP helper core (`exec`, the attempt loop, and
`do`, the single-attempt executor) against its natural-language specification.

The Go source is shallowly embedded:
  * `doAttempt` embeds `do` (bhttp.go:229-283).  The HTTP client, the request,
    the rate limiter and its wait outcome, the transport send outcome and the
    JSON codec are external collaborators, so they appear as explicit
    parameters (`TryEnv` holds the per-try environment: the rate-limiter wait
    result and the transport send outcome).
  * `exec` embeds `exec` (bhttp.go:178-227).  The `for try := 1; ...` loop
    becomes fuel recursion (`execLoop`) on the number of remaining tries.
    Pointer writes into the caller-supplied `Options` (`opts.Retry = new(RetryConfig)`
    and the negative-attempts clamp) are modelled by returning the
    caller-visible options value after the call (`ExecOutcome.finalOpts`).
  * `DoOutcome` instruments each attempt with whether the transport was
    invoked (`sent`), whether the diagnostic body was built, and whether a
    decode into the destination was attempted, so that "never sent" /
    "no decode attempted" style sentences are directly statable.
-/

namespace BHttp

/-- Parsed JSON values, the carrier of the abstract JSON codec capability. -/
inductive JsonVal where
  | null
  | jbool (b : Bool)
  | jnum (n : Int)
  | jstr (s : String)
  | jarr (xs : List JsonVal)
  | jobj (fields : List (String × JsonVal))
  deriving Repr

/-- The JSON codec capability consumed by the core: `unmarshal` embeds
`json.Unmarshal(body, &raw)`, `marshalIndent` embeds
`json.MarshalIndent(raw, "", "\t")`, and `decodeInto` embeds
`json.Unmarshal(body, dest)` for the (fixed) destination of the call,
returning the decode error message when decoding fails. -/
structure Codec where
  unmarshal : String → Option JsonVal
  marshalIndent : JsonVal → Option String
  decodeInto : String → Option String

/-- Outcome of one transport send (`httpClient.Do` + `io.ReadAll`):
a transport-level failure, a body-read failure, or a response with a
status code and a fully read body. -/
inductive SendOutcome where
  | sendErr (msg : String)
  | readErr (msg : String)
  | ok (status : Int) (body : String)
  deriving Repr, DecidableEq

/-- The per-try external environment: the rate limiter wait result for that
try (`some cause` when the wait fails with the given cancellation cause) and
the transport send outcome for that try. -/
structure TryEnv where
  waitErr : Option String
  send : SendOutcome
  deriving Repr, DecidableEq

/-- Errors produced by the core, mirroring the `errors.New` / `fmt.Errorf`
values in bhttp.go. -/
inductive Err where
  | nilClient
  | nilRequest
  | invalidDest (typ : String)
  | rateLimitWaitFailed (cause : String)
  | transportFailed (msg : String)
  | bodyRead (msg : String)
  | unexpectedStatus (expected : List Int) (got : Int) (body : String)
  | decodeFailed (cause : String) (body : String)
  | retriesExhausted (attempts : Int) (cause : Err)
  deriving Repr, DecidableEq

/-- Result of one invocation of the single-attempt executor: the
`(shouldRetry, error)` pair returned by `do`, instrumented with whether the
transport send was invoked, whether the diagnostic body representation was
built, and whether a JSON decode into the destination was attempted. -/
structure DoOutcome where
  shouldRetry : Bool
  error : Option Err
  sent : Bool
  diagnosticBuilt : Bool
  decodeAttempted : Bool
  deriving Repr, DecidableEq

/-- The default expected status set, Go value `[]int` holding `http.StatusOK`. -/
def defaultExpected : List Int := [200]

/-- The effective expected-status set: bhttp.go:236-238 replaces an empty
`expectedStatusCodes` with `[]int{http.StatusOK}`. -/
def effExpected (expected : List Int) : List Int :=
  if expected.isEmpty then defaultExpected else expected

/-- The diagnostic body representation built at bhttp.go:262-268:
`errRespBody` starts as the raw body text and becomes the pretty-printed
re-serialization exactly when `json.Unmarshal` and then `json.MarshalIndent`
both succeed. -/
def diagnosticBody (codec : Codec) (body : String) : String :=
  match codec.unmarshal body with
  | none => body
  | some raw =>
    match codec.marshalIndent raw with
    | none => body
    | some pretty => pretty

/-- The part of `do` from the transport send onward (bhttp.go:247-282):
transport failure, body-read failure, retry classification, diagnostic body,
expected-status check, and optional decode into the destination. -/
def doSendPhase (codec : Codec) (destPresent : Bool)
    (expected retryCodes : List Int) (send : SendOutcome) : DoOutcome :=
  match send with
  | .sendErr m => ⟨false, some (.transportFailed m), true, false, false⟩
  | .readErr m => ⟨false, some (.bodyRead m), true, false, false⟩
  | .ok status body =>
    if retryCodes.contains status then
      ⟨true, none, true, false, false⟩
    else
      let errRespBody := diagnosticBody codec body
      if !(expected.contains status) then
        ⟨false, some (.unexpectedStatus expected status errRespBody), true, true, false⟩
      else if !destPresent then
        ⟨false, none, true, true, false⟩
      else
        match codec.decodeInto body with
        | some e => ⟨false, some (.decodeFailed e errRespBody), true, true, true⟩
        | none => ⟨false, none, true, true, true⟩

/-- The single-attempt executor `do` (bhttp.go:229-283): nil-client and
nil-request guards, expected-status defaulting, the rate-limiter wait
(performed only when a limiter is supplied and the request context is
non-nil), then the send phase. -/
def doAttempt (codec : Codec)
    (clientPresent reqPresent rateLimiterPresent ctxPresent destPresent : Bool)
    (expected retryCodes : List Int) (env : TryEnv) : DoOutcome :=
  if !clientPresent then
    ⟨false, some .nilClient, false, false, false⟩
  else if !reqPresent then
    ⟨false, some .nilRequest, false, false, false⟩
  else
    let expectedEff := effExpected expected
    if rateLimiterPresent && ctxPresent then
      match env.waitErr with
      | some cause => ⟨false, some (.rateLimitWaitFailed cause), false, false, false⟩
      | none => doSendPhase codec destPresent expectedEff retryCodes env.send
    else
      doSendPhase codec destPresent expectedEff retryCodes env.send

/-- Go struct `RetryConfig` (options.go:22-37): retries after the first attempt, and
the status codes that trigger a retry.  `attempts` is a Go `int`, so it is
modelled as `Int` (negative values are meaningful: `exec` clamps them). -/
structure RetryConfig where
  attempts : Int
  retryStatusCodes : List Int
  deriving Repr, DecidableEq

/-- Go struct `Options` (options.go:7-20).  The rate limiter is an external shared
capability, so only its presence is part of the options value. -/
structure Options where
  expectedStatusCodes : List Int
  retry : Option RetryConfig
  rateLimiterPresent : Bool
  deriving Repr, DecidableEq

/-- The negative-attempts guard at bhttp.go:192-195. -/
def clampAttempts (a : Int) : Int := if a < 0 then 0 else a

/-- The caller-visible effect of the option normalization at
bhttp.go:188-195 on a non-nil `Options`: a nil `Retry` is replaced by a
fresh zero `RetryConfig` (written through the caller-held pointer), and a
negative `Attempts` is clamped to 0 in place. -/
def normalizeOptions (o : Options) : Options :=
  let r := o.retry.getD ⟨0, []⟩
  { o with retry := some ⟨clampAttempts r.attempts, r.retryStatusCodes⟩ }

/-- The destination argument as seen by `reflect.ValueOf` (bhttp.go:179-184)
and by the `dest == nil` interface check (bhttp.go:274): a nil interface,
a non-pointer value, a nil pointer, or a valid non-nil pointer.  Each
non-absent shape carries its Go type name (the `%T` text). -/
inductive DestVal where
  | absent
  | nonPtr (typ : String)
  | nilPtr (typ : String)
  | validPtr (typ : String)
  deriving Repr, DecidableEq

/-- Whether `reflect.ValueOf(dest)` is a non-nil pointer. -/
def DestVal.isValidPtr : DestVal → Bool
  | .validPtr _ => true
  | _ => false

/-- Whether `dest != nil` as an interface value: only a literal nil
interface (the `absent` shape) compares equal to nil. -/
def DestVal.present : DestVal → Bool
  | .absent => false
  | _ => true

/-- The `%T` rendering of the destination in the validation error. -/
def DestVal.typeName : DestVal → String
  | .absent => "<nil>"
  | .nonPtr t => t
  | .nilPtr t => t
  | .validPtr t => t

/-- The retry-code set passed to the executor on a given try
(bhttp.go:200-204): the configured set, except on the last try
(`try == totalTries`), where it is set to nil. -/
def retryCodesAt (totalTries : Nat) (configured : List Int) (t : Nat) : List Int :=
  if t = totalTries then [] else configured

/-- The wrapping applied to an executor error at bhttp.go:214-219:
wrapped as "retries exhausted" exactly when the (clamped) attempts count
is positive. -/
def wrapErr (attempts : Int) (e : Err) : Err :=
  if 0 < attempts then .retriesExhausted attempts e else e

/-- Everything the loop body reads that does not change across tries:
the codec, the fixed collaborator presence flags, the normalized options,
the destination, the per-try environment, and the computed total tries. -/
structure LoopCtx where
  codec : Codec
  clientPresent : Bool
  reqPresent : Bool
  ctxPresent : Bool
  opts : Options
  dest : DestVal
  env : Nat → TryEnv
  totalTries : Nat

/-- The attempts count the loop reads from the normalized options
(`opts.Retry.Attempts` after the clamp). -/
def LoopCtx.attempts (C : LoopCtx) : Int :=
  (C.opts.retry.getD ⟨0, []⟩).attempts

/-- The configured retry-status set the loop reads from the options. -/
def LoopCtx.retrySet (C : LoopCtx) : List Int :=
  (C.opts.retry.getD ⟨0, []⟩).retryStatusCodes

/-- The executor invocation performed on try `t` (bhttp.go:206-213). -/
def attemptAt (C : LoopCtx) (t : Nat) : DoOutcome :=
  doAttempt C.codec C.clientPresent C.reqPresent C.opts.rateLimiterPresent
    C.ctxPresent C.dest.present C.opts.expectedStatusCodes
    (retryCodesAt C.totalTries C.retrySet t) (C.env t)

/-- Aggregate result of the loop: the returned error, the number of
executor invocations, and the number of transport sends. -/
structure LoopOut where
  error : Option Err
  tries : Nat
  sends : Nat
  deriving Repr, DecidableEq

/-- The `for try := 1; try <= totalTries; try++` loop of `exec`
(bhttp.go:199-224) as fuel recursion: `t` is the current try number and the
fuel is the number of tries still allowed.  An executor error returns
immediately (wrapped per `wrapErr`); `shouldRetry = false` breaks out of the
loop with a nil error; otherwise the next try runs. -/
def execLoop (C : LoopCtx) : Nat → Nat → LoopOut
  | _, 0 => ⟨none, 0, 0⟩
  | t, r + 1 =>
    let out := attemptAt C t
    match out.error with
    | some e => ⟨some (wrapErr C.attempts e), 1, if out.sent then 1 else 0⟩
    | none =>
      if out.shouldRetry then
        let rest := execLoop C (t + 1) r
        ⟨rest.error, rest.tries + 1, rest.sends + (if out.sent then 1 else 0)⟩
      else
        ⟨none, 1, if out.sent then 1 else 0⟩

/-- Result of one call to the attempt loop: the returned error, the
caller-visible options value after the call (recording the in-place
normalization writes), and the try and send counts. -/
structure ExecOutcome where
  error : Option Err
  finalOpts : Option Options
  tries : Nat
  sends : Nat
  deriving Repr, DecidableEq

/-- The loop context `exec` builds from the call arguments after option
normalization (bhttp.go:185-197): normalized options and
`totalTries = 1 + opts.Retry.Attempts`. -/
def execCtx (codec : Codec) (clientPresent reqPresent ctxPresent : Bool)
    (dest : DestVal) (o : Options) (env : Nat → TryEnv) : LoopCtx :=
  let n := normalizeOptions o
  ⟨codec, clientPresent, reqPresent, ctxPresent, n, dest, env,
    1 + ((n.retry.getD ⟨0, []⟩).attempts).toNat⟩

/-- The attempt loop `exec` (bhttp.go:178-227): destination validation
(when requested), option normalization, and the try loop.  `opts = none`
models a nil `*Options` (a fresh default value is used and nothing is
caller-visible). -/
def exec (codec : Codec) (clientPresent reqPresent ctxPresent : Bool)
    (dest : DestVal) (validateDest : Bool) (opts : Option Options)
    (env : Nat → TryEnv) : ExecOutcome :=
  if validateDest && !dest.isValidPtr then
    ⟨some (.invalidDest dest.typeName), opts, 0, 0⟩
  else
    let C := execCtx codec clientPresent reqPresent ctxPresent dest
      (opts.getD ⟨[], none, false⟩) env
    let L := execLoop C 1 C.totalTries
    ⟨L.error, opts.map normalizeOptions, L.tries, L.sends⟩

/-- The Go fmt verb rendering of an int slice, as used in the unexpected-status
message. -/
def intListGoFmt (xs : List Int) : String :=
  "[" ++ String.intercalate " " (xs.map toString) ++ "]"

/-- The error message of each `Err`, mirroring the `errors.New` /
`fmt.Errorf` format strings in bhttp.go. -/
def Err.msg : Err → String
  | .nilClient => "nil http client"
  | .nilRequest => "nil request"
  | .invalidDest t => "dest must be a non-nil pointer. retrieved dest type: " ++ t
  | .rateLimitWaitFailed c => "rate limiter wait failed: " ++ c
  | .transportFailed m => m
  | .bodyRead m => m
  | .unexpectedStatus expected got body =>
    "expected status code(s) " ++ intListGoFmt expected ++ " but got " ++
      toString got ++ ". body: " ++ body
  | .decodeFailed c body =>
    "fail to unmarshal response body into dest. err: " ++ c ++ ". body: " ++ body
  | .retriesExhausted n cause =>
    "retries exhausted after " ++ toString n ++ " attempt(s): " ++ cause.msg

/-- A trivial codec: nothing parses as JSON and every decode into the
destination succeeds.  Used to instantiate theorems at concrete inputs. -/
def rawCodec : Codec :=
  ⟨fun _ => none, fun _ => none, fun _ => none⟩

/-- With client and request present and a successful (or skipped) wait, the
attempt reduces to the send phase over the effective expected set. -/
theorem doAttempt_present (codec : Codec) (rl cx dp : Bool)
    (expected retryCodes : List Int) (send : SendOutcome) :
    doAttempt codec true true rl cx dp expected retryCodes ⟨none, send⟩ =
      doSendPhase codec dp (effExpected expected) retryCodes send := by
  cases rl <;> cases cx <;> simp [doAttempt]

/-- A retry-classified response short-circuits the send phase. -/
theorem doSendPhase_retry (codec : Codec) (dp : Bool)
    (expected retryCodes : List Int) (s : Int) (b : String)
    (h : s ∈ retryCodes) :
    doSendPhase codec dp expected retryCodes (.ok s b) =
      ⟨true, none, true, false, false⟩ := by
  simp [doSendPhase, h]

/-- A response that is neither retry-classified nor expected yields the
unexpected-status error carrying the diagnostic body. -/
theorem doSendPhase_unexpected (codec : Codec) (dp : Bool)
    (expected retryCodes : List Int) (s : Int) (b : String)
    (h1 : s ∉ retryCodes) (h2 : s ∉ expected) :
    doSendPhase codec dp expected retryCodes (.ok s b) =
      ⟨false, some (.unexpectedStatus expected s (diagnosticBody codec b)),
        true, true, false⟩ := by
  simp [doSendPhase, h1, h2]

/-- An expected response with no destination succeeds without decoding. -/
theorem doSendPhase_ok_nodest (codec : Codec)
    (expected retryCodes : List Int) (s : Int) (b : String)
    (h1 : s ∉ retryCodes) (h2 : s ∈ expected) :
    doSendPhase codec false expected retryCodes (.ok s b) =
      ⟨false, none, true, true, false⟩ := by
  simp [doSendPhase, h1, h2]

/-- An expected response with a destination and a successful decode
succeeds. -/
theorem doSendPhase_ok_decoded (codec : Codec)
    (expected retryCodes : List Int) (s : Int) (b : String)
    (h1 : s ∉ retryCodes) (h2 : s ∈ expected)
    (h3 : codec.decodeInto b = none) :
    doSendPhase codec true expected retryCodes (.ok s b) =
      ⟨false, none, true, true, true⟩ := by
  simp [doSendPhase, h1, h2, h3]

/-- Characterization of a retry-signalling send phase: `shouldRetry = true`
forces the retry outcome, and the send must be a response whose status is
in the retry-code set. -/
theorem doSendPhase_retry_char (codec : Codec) (dp : Bool)
    (expected retryCodes : List Int) (send : SendOutcome)
    (h : (doSendPhase codec dp expected retryCodes send).shouldRetry = true) :
    doSendPhase codec dp expected retryCodes send =
      ⟨true, none, true, false, false⟩ ∧
    ∃ s b, send = SendOutcome.ok s b ∧ s ∈ retryCodes := by
  cases send with
  | sendErr m => simp [doSendPhase] at h
  | readErr m => simp [doSendPhase] at h
  | ok s b =>
    by_cases hc : s ∈ retryCodes
    · exact ⟨doSendPhase_retry codec dp expected retryCodes s b hc, s, b, rfl, hc⟩
    · exfalso
      by_cases he : s ∈ expected
      · by_cases hdp : dp = true
        · cases hd : codec.decodeInto b <;>
            simp [doSendPhase, hc, he, hdp, hd] at h
        · have hdp' : dp = false := by simpa using hdp
          simp [doSendPhase, hc, he, hdp'] at h
      · simp [doSendPhase, hc, he] at h

/-- Characterization of a retry-signalling attempt: `shouldRetry = true`
forces the whole outcome to be the retry outcome, and the environment
must have produced a response whose status is in the retry-code set. -/
theorem doAttempt_retry_char (codec : Codec)
    (cp rp rl cx dp : Bool) (expected retryCodes : List Int) (env : TryEnv)
    (h : (doAttempt codec cp rp rl cx dp expected retryCodes env).shouldRetry = true) :
    doAttempt codec cp rp rl cx dp expected retryCodes env =
      ⟨true, none, true, false, false⟩ ∧
    ∃ s b, env.send = SendOutcome.ok s b ∧ s ∈ retryCodes := by
  obtain ⟨w, send⟩ := env
  cases cp with
  | false => simp [doAttempt] at h
  | true =>
    cases rp with
    | false => simp [doAttempt] at h
    | true =>
      by_cases hrl : (rl && cx) = true
      · cases w with
        | some cause => simp [doAttempt, hrl] at h
        | none =>
          rw [doAttempt_present] at h
          obtain ⟨h1, h2⟩ := doSendPhase_retry_char codec dp _ retryCodes send h
          exact ⟨by rw [doAttempt_present, h1], h2⟩
      · have hrl' : (rl && cx) = false := by simpa using hrl
        have heq : doAttempt codec true true rl cx dp expected retryCodes ⟨w, send⟩ =
            doSendPhase codec dp (effExpected expected) retryCodes send := by
          simp [doAttempt, hrl']
        rw [heq] at h
        obtain ⟨h1, h2⟩ := doSendPhase_retry_char codec dp _ retryCodes send h
        exact ⟨by rw [heq, h1], h2⟩

/-- Unfolding the loop one step. -/
theorem execLoop_succ (C : LoopCtx) (t r : Nat) :
    execLoop C t (r + 1) =
      (match (attemptAt C t).error with
       | some e =>
         ⟨some (wrapErr C.attempts e), 1, if (attemptAt C t).sent then 1 else 0⟩
       | none =>
         if (attemptAt C t).shouldRetry then
           ⟨(execLoop C (t + 1) r).error, (execLoop C (t + 1) r).tries + 1,
            (execLoop C (t + 1) r).sends + (if (attemptAt C t).sent then 1 else 0)⟩
         else
           ⟨none, 1, if (attemptAt C t).sent then 1 else 0⟩) := rfl

/-- Loop step when the executor errors on the current try. -/
theorem execLoop_step_err (C : LoopCtx) (t r : Nat) (e : Err)
    (he : (attemptAt C t).error = some e) :
    execLoop C t (r + 1) =
      ⟨some (wrapErr C.attempts e), 1, if (attemptAt C t).sent then 1 else 0⟩ := by
  simp [execLoop_succ, he]

/-- Loop step when the executor signals a retry on the current try. -/
theorem execLoop_step_retry (C : LoopCtx) (t r : Nat)
    (he : (attemptAt C t).error = none)
    (hsr : (attemptAt C t).shouldRetry = true) :
    execLoop C t (r + 1) =
      ⟨(execLoop C (t + 1) r).error, (execLoop C (t + 1) r).tries + 1,
       (execLoop C (t + 1) r).sends + (if (attemptAt C t).sent then 1 else 0)⟩ := by
  simp [execLoop_succ, he, hsr]

/-- Loop step when the executor reports error-free non-retry: the loop
breaks with a nil error. -/
theorem execLoop_step_done (C : LoopCtx) (t r : Nat)
    (he : (attemptAt C t).error = none)
    (hsr : (attemptAt C t).shouldRetry = false) :
    execLoop C t (r + 1) = ⟨none, 1, if (attemptAt C t).sent then 1 else 0⟩ := by
  simp [execLoop_succ, he, hsr]

/-- Skipping `k` consecutive retry-signalling tries adds `k` to the try and
send counts and leaves the rest of the loop unchanged. -/
theorem execLoop_skip (C : LoopCtx) (k : Nat) :
    ∀ t r,
      (∀ u, t ≤ u → u < t + k → attemptAt C u = ⟨true, none, true, false, false⟩) →
      execLoop C t (k + r) =
        ⟨(execLoop C (t + k) r).error,
         (execLoop C (t + k) r).tries + k,
         (execLoop C (t + k) r).sends + k⟩ := by
  induction k with
  | zero => intro t r _; simp
  | succ k ih =>
    intro t r h
    have hstep : attemptAt C t = ⟨true, none, true, false, false⟩ :=
      h t (Nat.le_refl t) (by omega)
    have he : (attemptAt C t).error = none := by rw [hstep]
    have hsr : (attemptAt C t).shouldRetry = true := by rw [hstep]
    have hsent : (attemptAt C t).sent = true := by rw [hstep]
    have hrec := ih (t + 1) r (fun u hu1 hu2 => h u (by omega) (by omega))
    rw [show k + 1 + r = (k + r) + 1 by omega,
      execLoop_step_retry C t (k + r) he hsr, hrec, hsent,
      show t + 1 + k = t + (k + 1) by omega]
    dsimp only
    rfl

/-- Every error returned by the loop is the `wrapErr`-wrapping of an error
produced by the executor on some executed try. -/
theorem execLoop_error_inv (C : LoopCtx) :
    ∀ r t w, (execLoop C t r).error = some w →
      ∃ u c, t ≤ u ∧ u < t + r ∧ (attemptAt C u).error = some c ∧
        w = wrapErr C.attempts c := by
  intro r
  induction r with
  | zero => intro t w hw; simp [execLoop] at hw
  | succ r ih =>
    intro t w hw
    rcases he : (attemptAt C t).error with _ | e
    · by_cases hsr : (attemptAt C t).shouldRetry = true
      · rw [execLoop_step_retry C t r he hsr] at hw
        dsimp only at hw
        obtain ⟨u, c, hu1, hu2, hc, hwc⟩ := ih (t + 1) w hw
        exact ⟨u, c, by omega, by omega, hc, hwc⟩
      · have hsr' : (attemptAt C t).shouldRetry = false := by simpa using hsr
        rw [execLoop_step_done C t r he hsr'] at hw
        simp at hw
    · rw [execLoop_step_err C t r e he] at hw
      dsimp only at hw
      simp only [Option.some.injEq] at hw
      exact ⟨t, e, Nat.le_refl t, by omega, he, hw.symm⟩

/-- If every try before `u` signalled a retry and try `u` produces an error,
the loop stops at try `u`: it returns the wrapped error after exactly
`u + 1 - t` tries. -/
theorem execLoop_error_stop (C : LoopCtx) :
    ∀ r t u e, t ≤ u → u < t + r →
      (∀ v, t ≤ v → v < u → (attemptAt C v).error = none ∧
        (attemptAt C v).shouldRetry = true) →
      (attemptAt C u).error = some e →
      (execLoop C t r).error = some (wrapErr C.attempts e) ∧
      (execLoop C t r).tries = u + 1 - t := by
  intro r
  induction r with
  | zero => intro t u e h1 h2; omega
  | succ r ih =>
    intro t u e h1 h2 hprev herr
    rcases Nat.eq_or_lt_of_le h1 with heq | hlt
    · subst heq
      rw [execLoop_step_err C t r e herr]
      dsimp only
      exact ⟨rfl, by omega⟩
    · have h0 := hprev t (Nat.le_refl t) hlt
      obtain ⟨hrE, hrT⟩ := ih (t + 1) u e (by omega) (by omega)
        (fun v hv1 hv2 => hprev v (by omega) hv2) herr
      rw [execLoop_step_retry C t r h0.1 h0.2]
      dsimp only
      exact ⟨hrE, by omega⟩

/-- Every try that is followed by a further try ended as an error-free
retry signal. -/
theorem execLoop_mid_retry (C : LoopCtx) :
    ∀ r t u, t ≤ u → u + 1 < t + (execLoop C t r).tries →
      (attemptAt C u).error = none ∧ (attemptAt C u).shouldRetry = true := by
  intro r
  induction r with
  | zero => intro t u h1 h2; simp [execLoop] at h2; omega
  | succ r ih =>
    intro t u h1 h2
    rcases he : (attemptAt C t).error with _ | e
    · by_cases hsr : (attemptAt C t).shouldRetry = true
      · rw [execLoop_step_retry C t r he hsr] at h2
        dsimp only at h2
        rcases Nat.eq_or_lt_of_le h1 with heq | hlt
        · subst heq; exact ⟨he, hsr⟩
        · exact ih (t + 1) u (by omega) (by omega)
      · have hsr' : (attemptAt C t).shouldRetry = false := by simpa using hsr
        rw [execLoop_step_done C t r he hsr'] at h2
        dsimp only at h2
        omega
    · rw [execLoop_step_err C t r e he] at h2
      dsimp only at h2
      omega

/-- When destination validation passes, `exec` is the loop run with the
normalized options, starting at try 1 with `totalTries` fuel. -/
theorem exec_eq_loop (codec : Codec) (cp rp cx : Bool) (dest : DestVal)
    (vd : Bool) (opts : Option Options) (env : Nat → TryEnv)
    (hdv : (vd && !dest.isValidPtr) = false) :
    exec codec cp rp cx dest vd opts env =
      ⟨(execLoop (execCtx codec cp rp cx dest (opts.getD ⟨[], none, false⟩) env) 1
          (execCtx codec cp rp cx dest (opts.getD ⟨[], none, false⟩) env).totalTries).error,
       opts.map normalizeOptions,
       (execLoop (execCtx codec cp rp cx dest (opts.getD ⟨[], none, false⟩) env) 1
          (execCtx codec cp rp cx dest (opts.getD ⟨[], none, false⟩) env).totalTries).tries,
       (execLoop (execCtx codec cp rp cx dest (opts.getD ⟨[], none, false⟩) env) 1
          (execCtx codec cp rp cx dest (opts.getD ⟨[], none, false⟩) env).totalTries).sends⟩ := by
  rw [exec, hdv]
  simp

/-- A codec that parses every body to JSON null and pretty-prints it as a
fixed text.  Used to instantiate theorems at concrete inputs. -/
def prettyCodec : Codec :=
  ⟨fun _ => some .null, fun _ => some "PRETTY", fun _ => none⟩

/-- C9: the single-attempt executor never returns `shouldRetry = true`
together with a non-nil error; every return is either `(true, nil)` or
`(false, e)`, so the attempt loop continues to a next try only on
error-free retry-classified outcomes. -/
theorem retry_signal_has_no_error (codec : Codec)
    (cp rp rl cx dp : Bool) (expected retryCodes : List Int) (env : TryEnv)
    (h : (doAttempt codec cp rp rl cx dp expected retryCodes env).shouldRetry = true) :
    (doAttempt codec cp rp rl cx dp expected retryCodes env).error = none := by
  rw [(doAttempt_retry_char codec cp rp rl cx dp expected retryCodes env h).1]

/-- Witness for C9 at a concrete retry-classified response. -/
theorem retry_signal_has_no_error_witness :
    (doAttempt rawCodec true true false false false [200] [503]
      ⟨none, .ok 503 "x"⟩).shouldRetry = true ∧
    (doAttempt rawCodec true true false false false [200] [503]
      ⟨none, .ok 503 "x"⟩).error = none :=
  ⟨by decide,
   retry_signal_has_no_error rawCodec true true false false false [200] [503]
     ⟨none, .ok 503 "x"⟩ (by decide)⟩

/-- C6: with a rate limiter supplied and the request context present, a
failed (cancelled) limiter wait makes the attempt fail with
`RateLimitWaitFailed` wrapping the cancellation cause, and the transport is
never invoked on that attempt (`sent = false`), whatever the transport
would have answered. -/
theorem ratelimit_cancel_never_sends (codec : Codec) (dp : Bool)
    (expected retryCodes : List Int) (cause : String) (send : SendOutcome) :
    doAttempt codec true true true true dp expected retryCodes ⟨some cause, send⟩ =
      ⟨false, some (.rateLimitWaitFailed cause), false, false, false⟩ := by
  simp [doAttempt]

/-- C7: a response whose status is in the retry-code set makes the executor
return `(true, nil)` with no further processing: no diagnostic body is
built, no expected-status check matters, no decode is attempted and no
error is produced — for every expected set (even one containing the
status) and every destination. -/
theorem retry_code_short_circuits (codec : Codec) (rl cx dp : Bool)
    (expected retryCodes : List Int) (s : Int) (b : String)
    (h : s ∈ retryCodes) :
    doAttempt codec true true rl cx dp expected retryCodes ⟨none, .ok s b⟩ =
      ⟨true, none, true, false, false⟩ := by
  rw [doAttempt_present]
  exact doSendPhase_retry codec dp _ retryCodes s b h

/-- Witness for C7: status 503 is both retry-classified and in the expected
set, and a destination is present; the attempt still returns `(true, nil)`
with no diagnostic built and no decode attempted. -/
theorem retry_code_short_circuits_witness :
    doAttempt rawCodec true true false false true [503] [503] ⟨none, .ok 503 "b"⟩ =
      ⟨true, none, true, false, false⟩ :=
  retry_code_short_circuits rawCodec false false true [503] [503] 503 "b" (by decide)

/-- C8: the diagnostic body text used in error messages is the raw body
when the body does not parse as JSON and the pretty-printed
re-serialization when it does, and both the unexpected-status and the
decode-failure errors carry exactly that text. -/
theorem diagnostic_body_policy (codec : Codec) (body : String) :
    (codec.unmarshal body = none → diagnosticBody codec body = body) ∧
    (∀ v p, codec.unmarshal body = some v → codec.marshalIndent v = some p →
      diagnosticBody codec body = p) ∧
    (∀ dp : Bool, ∀ expected retryCodes : List Int, ∀ s : Int,
      s ∉ retryCodes → s ∉ expected →
      (doSendPhase codec dp expected retryCodes (.ok s body)).error =
        some (.unexpectedStatus expected s (diagnosticBody codec body))) ∧
    (∀ expected retryCodes : List Int, ∀ s : Int, ∀ em : String,
      s ∉ retryCodes → s ∈ expected → codec.decodeInto body = some em →
      (doSendPhase codec true expected retryCodes (.ok s body)).error =
        some (.decodeFailed em (diagnosticBody codec body))) := by
  refine ⟨fun h => by simp [diagnosticBody, h],
    fun v p h1 h2 => by simp [diagnosticBody, h1, h2],
    fun dp expected retryCodes s h1 h2 => by
      rw [doSendPhase_unexpected codec dp expected retryCodes s body h1 h2],
    fun expected retryCodes s em h1 h2 h3 => by
      simp [doSendPhase, h1, h2, h3]⟩

/-- Witness for C8: a non-parsing body is kept verbatim; a parsing body is
replaced by its pretty-printed form. -/
theorem diagnostic_body_policy_witness :
    diagnosticBody rawCodec "plain text" = "plain text" ∧
    diagnosticBody prettyCodec "x" = "PRETTY" :=
  ⟨(diagnostic_body_policy rawCodec "plain text").1 rfl,
   (diagnostic_body_policy prettyCodec "x").2.1 .null "PRETTY" rfl rfl⟩

/-- C10: with destination validation requested and a destination that is
not a non-nil pointer, `exec` fails with the validation error before
normalizing options (the caller-visible options are untouched), with zero
executor tries and zero transport sends, and the error is never wrapped as
retries-exhausted, whatever the configured attempts. -/
theorem invalid_dest_short_circuits (codec : Codec) (cp rp cx : Bool)
    (dest : DestVal) (opts : Option Options) (env : Nat → TryEnv)
    (h : dest.isValidPtr = false) :
    exec codec cp rp cx dest true opts env =
      ⟨some (.invalidDest dest.typeName), opts, 0, 0⟩ ∧
    ∀ n c, (exec codec cp rp cx dest true opts env).error ≠
      some (.retriesExhausted n c) := by
  have he : exec codec cp rp cx dest true opts env =
      ⟨some (.invalidDest dest.typeName), opts, 0, 0⟩ := by
    simp [exec, h]
  refine ⟨he, fun n c hc => ?_⟩
  rw [he] at hc
  simp at hc

/-- Witness for C10 at a nil-pointer destination with retries configured. -/
theorem invalid_dest_short_circuits_witness :
    exec rawCodec true true true (DestVal.nilPtr "*bhttp_test.Resp") true
      (some ⟨[200], some ⟨5, [503]⟩, false⟩) (fun _ => ⟨none, .ok 200 "ok"⟩) =
      ⟨some (.invalidDest "*bhttp_test.Resp"),
       some ⟨[200], some ⟨5, [503]⟩, false⟩, 0, 0⟩ :=
  (invalid_dest_short_circuits rawCodec true true true (DestVal.nilPtr "*bhttp_test.Resp")
    (some ⟨[200], some ⟨5, [503]⟩, false⟩) (fun _ => ⟨none, .ok 200 "ok"⟩) (by decide)).1

/-- Specialization of `exec_eq_loop` to a non-nil options value. -/
theorem exec_eq_loop_some (codec : Codec) (cp rp cx : Bool) (dest : DestVal)
    (vd : Bool) (o : Options) (env : Nat → TryEnv)
    (hdv : (vd && !dest.isValidPtr) = false) :
    exec codec cp rp cx dest vd (some o) env =
      ⟨(execLoop (execCtx codec cp rp cx dest o env) 1
          (execCtx codec cp rp cx dest o env).totalTries).error,
       some (normalizeOptions o),
       (execLoop (execCtx codec cp rp cx dest o env) 1
          (execCtx codec cp rp cx dest o env).totalTries).tries,
       (execLoop (execCtx codec cp rp cx dest o env) 1
          (execCtx codec cp rp cx dest o env).totalTries).sends⟩ := by
  rw [exec_eq_loop codec cp rp cx dest vd (some o) env hdv]
  rfl

/-- Evaluating the loop context built from an explicit retry config. -/
theorem execCtx_eval (codec : Codec) (cp rp cx : Bool) (dest : DestVal)
    (exp rc : List Int) (a : Int) (rl : Bool) (env : Nat → TryEnv) :
    execCtx codec cp rp cx dest ⟨exp, some ⟨a, rc⟩, rl⟩ env =
      ⟨codec, cp, rp, cx, ⟨exp, some ⟨clampAttempts a, rc⟩, rl⟩, dest, env,
        1 + (clampAttempts a).toNat⟩ := rfl

/-- The total tries computed from an explicit retry config. -/
theorem execCtx_totalTries (codec : Codec) (cp rp cx : Bool) (dest : DestVal)
    (exp rc : List Int) (a : Int) (rl : Bool) (env : Nat → TryEnv) :
    (execCtx codec cp rp cx dest ⟨exp, some ⟨a, rc⟩, rl⟩ env).totalTries =
      1 + (clampAttempts a).toNat := rfl

/-- The clamped attempts count the loop reads. -/
theorem execCtx_attempts (codec : Codec) (cp rp cx : Bool) (dest : DestVal)
    (exp rc : List Int) (a : Int) (rl : Bool) (env : Nat → TryEnv) :
    (execCtx codec cp rp cx dest ⟨exp, some ⟨a, rc⟩, rl⟩ env).attempts =
      clampAttempts a := rfl

/-- The executor invocation on try `t` under an explicit retry config. -/
theorem execCtx_attemptAt (codec : Codec) (cp rp cx : Bool) (dest : DestVal)
    (exp rc : List Int) (a : Int) (rl : Bool) (env : Nat → TryEnv) (t : Nat) :
    attemptAt (execCtx codec cp rp cx dest ⟨exp, some ⟨a, rc⟩, rl⟩ env) t =
      doAttempt codec cp rp rl cx dest.present exp
        (retryCodesAt (1 + (clampAttempts a).toNat) rc t) (env t) := rfl

/-- Clamping is the identity on nonnegative attempts. -/
theorem clampAttempts_of_nonneg (a : Int) (h : 0 ≤ a) : clampAttempts a = a := by
  unfold clampAttempts
  split <;> omega

/-- Clamping sends every nonpositive attempts count to zero. -/
theorem clampAttempts_of_nonpos (a : Int) (h : a ≤ 0) : clampAttempts a = 0 := by
  unfold clampAttempts
  split <;> omega

/-- C4: with attempts-after-first at most 0 (negative values clamped to 0),
exactly one try occurs and the error of that single try — run with an empty
retry-code set, it being the final try — is returned to the caller exactly
as the executor produced it, unwrapped; with attempts-after-first positive,
every error returned by the loop is `RetriesExhausted` carrying the
attempts count and wrapping the error the executor produced on the failing try. -/
theorem attempts_wrap_policy (codec : Codec) (cp rp cx rl vd : Bool)
    (dest : DestVal) (exp rc : List Int) (a : Int) (env : Nat → TryEnv)
    (hdv : (vd && !dest.isValidPtr) = false) :
    (a ≤ 0 →
      (exec codec cp rp cx dest vd (some ⟨exp, some ⟨a, rc⟩, rl⟩) env).tries = 1 ∧
      (exec codec cp rp cx dest vd (some ⟨exp, some ⟨a, rc⟩, rl⟩) env).error =
        (doAttempt codec cp rp rl cx dest.present exp [] (env 1)).error) ∧
    (0 < a →
      ∀ e, (exec codec cp rp cx dest vd (some ⟨exp, some ⟨a, rc⟩, rl⟩) env).error =
          some e →
        ∃ t c, 1 ≤ t ∧ t ≤ 1 + a.toNat ∧
          (doAttempt codec cp rp rl cx dest.present exp
            (retryCodesAt (1 + a.toNat) rc t) (env t)).error = some c ∧
          e = .retriesExhausted a c) := by
  constructor
  · intro ha
    have hc0 : clampAttempts a = 0 := clampAttempts_of_nonpos a ha
    rw [exec_eq_loop_some codec cp rp cx dest vd _ env hdv]
    dsimp only
    have hT : (execCtx codec cp rp cx dest ⟨exp, some ⟨a, rc⟩, rl⟩ env).totalTries = 1 := by
      rw [execCtx_totalTries, hc0]
      rfl
    have hA : attemptAt (execCtx codec cp rp cx dest ⟨exp, some ⟨a, rc⟩, rl⟩ env) 1 =
        doAttempt codec cp rp rl cx dest.present exp [] (env 1) := by
      rw [execCtx_attemptAt, hc0]
      rfl
    have hW : (execCtx codec cp rp cx dest ⟨exp, some ⟨a, rc⟩, rl⟩ env).attempts = 0 := by
      rw [execCtx_attempts, hc0]
    rw [hT]
    rcases he : (attemptAt (execCtx codec cp rp cx dest ⟨exp, some ⟨a, rc⟩, rl⟩ env) 1).error
      with _ | e
    · have hsr : (attemptAt (execCtx codec cp rp cx dest ⟨exp, some ⟨a, rc⟩, rl⟩ env) 1).shouldRetry = false := by
        by_contra hx
        have hx' : (attemptAt (execCtx codec cp rp cx dest ⟨exp, some ⟨a, rc⟩, rl⟩ env) 1).shouldRetry = true := by
          simpa using hx
        rw [hA] at hx'
        obtain ⟨_, s, b, _, hmem⟩ := doAttempt_retry_char _ _ _ _ _ _ _ _ _ hx'
        simp at hmem
      rw [show (1 : Nat) = 0 + 1 from rfl, execLoop_step_done _ _ _ he hsr]
      dsimp only
      rw [← hA, he]
      exact ⟨rfl, rfl⟩
    · rw [show (1 : Nat) = 0 + 1 from rfl, execLoop_step_err _ _ _ e he]
      dsimp only
      rw [hW, ← hA, he]
      dsimp [wrapErr]
      exact ⟨rfl, rfl⟩
  · intro ha e he
    have hca : clampAttempts a = a := clampAttempts_of_nonneg a (le_of_lt ha)
    rw [exec_eq_loop_some codec cp rp cx dest vd _ env hdv] at he
    dsimp only at he
    obtain ⟨u, c, hu1, hu2, hc, hwc⟩ :=
      execLoop_error_inv _ _ 1 e he
    rw [execCtx_totalTries, hca] at hu2
    rw [execCtx_attemptAt, hca] at hc
    rw [execCtx_attempts, hca] at hwc
    refine ⟨u, c, hu1, by omega, hc, ?_⟩
    rw [hwc, wrapErr, if_pos ha]

/-- Witness for C4: a negative attempts count yields one try whose error
(an unexpected 500 with its body) reaches the caller unwrapped, and a
positive attempts count wraps a first-try error as retries-exhausted. -/
theorem attempts_wrap_policy_witness :
    (exec rawCodec true true false DestVal.absent false
      (some ⟨[200], some ⟨-3, [503]⟩, false⟩)
      (fun _ => ⟨none, .ok 500 "boom"⟩)).tries = 1 ∧
    (exec rawCodec true true false DestVal.absent false
      (some ⟨[200], some ⟨-3, [503]⟩, false⟩)
      (fun _ => ⟨none, .ok 500 "boom"⟩)).error =
      (doAttempt rawCodec true true false false false [200] []
        ⟨none, .ok 500 "boom"⟩).error :=
  (attempts_wrap_policy rawCodec true true false false false DestVal.absent
    [200] [503] (-3) (fun _ => ⟨none, .ok 500 "boom"⟩) (by decide)).1 (by decide)

/-- C5: an executor error on any try terminates the loop at that try (no
further tries), and every try that was followed by another try ended with
an error-free response whose status is a member of the retry-code set
passed to the executor for that try — so transport, body-read, status and
decode failures are never retried. -/
theorem error_stops_loop (codec : Codec) (cp rp cx rl vd : Bool)
    (dest : DestVal) (exp rc : List Int) (a : Int) (env : Nat → TryEnv)
    (hdv : (vd && !dest.isValidPtr) = false) :
    (∀ t, 1 ≤ t →
      t + 1 ≤ (exec codec cp rp cx dest vd (some ⟨exp, some ⟨a, rc⟩, rl⟩) env).tries →
      ∃ s b, (env t).send = SendOutcome.ok s b ∧
        s ∈ retryCodesAt (1 + (clampAttempts a).toNat) rc t) ∧
    (∀ t e, 1 ≤ t → t ≤ 1 + (clampAttempts a).toNat →
      (∀ u, 1 ≤ u → u < t →
        (doAttempt codec cp rp rl cx dest.present exp
          (retryCodesAt (1 + (clampAttempts a).toNat) rc u) (env u)).error = none ∧
        (doAttempt codec cp rp rl cx dest.present exp
          (retryCodesAt (1 + (clampAttempts a).toNat) rc u) (env u)).shouldRetry = true) →
      (doAttempt codec cp rp rl cx dest.present exp
        (retryCodesAt (1 + (clampAttempts a).toNat) rc t) (env t)).error = some e →
      (exec codec cp rp cx dest vd (some ⟨exp, some ⟨a, rc⟩, rl⟩) env).tries = t) := by
  constructor
  · intro t ht1 ht2
    rw [exec_eq_loop_some codec cp rp cx dest vd _ env hdv] at ht2
    dsimp only at ht2
    have hmid := execLoop_mid_retry
      (execCtx codec cp rp cx dest ⟨exp, some ⟨a, rc⟩, rl⟩ env)
      (execCtx codec cp rp cx dest ⟨exp, some ⟨a, rc⟩, rl⟩ env).totalTries
      1 t ht1 (by omega)
    have hchar := doAttempt_retry_char codec cp rp rl cx dest.present exp
      (retryCodesAt (1 + (clampAttempts a).toNat) rc t) (env t)
      (by rw [← execCtx_attemptAt]; exact hmid.2)
    obtain ⟨_, s, b, hsb, hmem⟩ := hchar
    exact ⟨s, b, hsb, hmem⟩
  · intro t e ht1 ht2 hprev herr
    rw [exec_eq_loop_some codec cp rp cx dest vd _ env hdv]
    dsimp only
    have hstop := execLoop_error_stop
      (execCtx codec cp rp cx dest ⟨exp, some ⟨a, rc⟩, rl⟩ env)
      (execCtx codec cp rp cx dest ⟨exp, some ⟨a, rc⟩, rl⟩ env).totalTries
      1 t e ht1
      (by rw [execCtx_totalTries]; omega)
      (fun v hv1 hv2 => by
        rw [execCtx_attemptAt]
        exact hprev v hv1 hv2)
      (by rw [execCtx_attemptAt]; exact herr)
    rw [hstop.2]
    omega

/-- Witness for C5: a transport failure on the very first try of a
3-total-try call terminates the loop after exactly one try. -/
theorem error_stops_loop_witness :
    (exec rawCodec true true false DestVal.absent false
      (some ⟨[200], some ⟨2, [503]⟩, false⟩)
      (fun _ => ⟨none, .sendErr "connection refused"⟩)).tries = 1 :=
  (error_stops_loop rawCodec true true false false false DestVal.absent
    [200] [503] 2 (fun _ => ⟨none, .sendErr "connection refused"⟩) (by decide)).2
    1 (.transportFailed "connection refused") (by decide) (by decide)
    (fun u hu1 hu2 => absurd hu2 (by omega)) (by decide)

/-- C2: with attempts = a > 0, retry-classified responses on every try
before the last and an expected-status response on the last try
(`1 + attempts`), the loop performs exactly `1 + attempts` tries and
transport sends and returns no error (provided the final body decodes when
a destination is present). -/
theorem retry_then_success (codec : Codec) (cx rl vd : Bool)
    (dest : DestVal) (exp rc : List Int) (a : Int)
    (status : Nat → Int) (body : Nat → String) (env : Nat → TryEnv)
    (ha : 0 < a)
    (hdv : (vd && !dest.isValidPtr) = false)
    (henv : ∀ t, 1 ≤ t → t ≤ 1 + a.toNat → env t = ⟨none, .ok (status t) (body t)⟩)
    (hretry : ∀ t, 1 ≤ t → t < 1 + a.toNat → status t ∈ rc)
    (hok : status (1 + a.toNat) ∈ effExpected exp)
    (hdec : dest.present = false ∨ codec.decodeInto (body (1 + a.toNat)) = none) :
    (exec codec true true cx dest vd (some ⟨exp, some ⟨a, rc⟩, rl⟩) env).error = none ∧
    (exec codec true true cx dest vd (some ⟨exp, some ⟨a, rc⟩, rl⟩) env).tries =
      1 + a.toNat ∧
    (exec codec true true cx dest vd (some ⟨exp, some ⟨a, rc⟩, rl⟩) env).sends =
      1 + a.toNat := by
  have hca : clampAttempts a = a := clampAttempts_of_nonneg a ha.le
  have hTT : (execCtx codec true true cx dest ⟨exp, some ⟨a, rc⟩, rl⟩ env).totalTries =
      1 + a.toNat := by
    rw [execCtx_totalTries, hca]
  have hmidAll : ∀ u, 1 ≤ u → u < 1 + a.toNat →
      attemptAt (execCtx codec true true cx dest ⟨exp, some ⟨a, rc⟩, rl⟩ env) u =
        ⟨true, none, true, false, false⟩ := by
    intro u hu1 hu2
    rw [execCtx_attemptAt, hca, henv u hu1 (by omega)]
    have hrcAt : retryCodesAt (1 + a.toNat) rc u = rc := by
      unfold retryCodesAt
      rw [if_neg (by omega)]
    rw [hrcAt, doAttempt_present]
    exact doSendPhase_retry codec dest.present _ rc (status u) (body u)
      (hretry u hu1 hu2)
  have hfin : (attemptAt (execCtx codec true true cx dest ⟨exp, some ⟨a, rc⟩, rl⟩ env)
        (1 + a.toNat)).error = none ∧
      (attemptAt (execCtx codec true true cx dest ⟨exp, some ⟨a, rc⟩, rl⟩ env)
        (1 + a.toNat)).shouldRetry = false ∧
      (attemptAt (execCtx codec true true cx dest ⟨exp, some ⟨a, rc⟩, rl⟩ env)
        (1 + a.toNat)).sent = true := by
    rw [execCtx_attemptAt, hca, henv (1 + a.toNat) (by omega) (Nat.le_refl _)]
    have hrcAt : retryCodesAt (1 + a.toNat) rc (1 + a.toNat) = [] := by
      unfold retryCodesAt
      rw [if_pos rfl]
    rw [hrcAt, doAttempt_present]
    cases hp : dest.present with
    | false =>
      rw [doSendPhase_ok_nodest codec (effExpected exp) []
        (status (1 + a.toNat)) (body (1 + a.toNat)) (by simp) hok]
      exact ⟨rfl, rfl, rfl⟩
    | true =>
      rcases hdec with hd | hd
      · rw [hp] at hd
        simp at hd
      · rw [doSendPhase_ok_decoded codec (effExpected exp) []
          (status (1 + a.toNat)) (body (1 + a.toNat)) (by simp) hok hd]
        exact ⟨rfl, rfl, rfl⟩
  have hE : execLoop (execCtx codec true true cx dest ⟨exp, some ⟨a, rc⟩, rl⟩ env)
      (1 + a.toNat) 1 = ⟨none, 1, 1⟩ := by
    rw [execLoop_step_done _ _ 0 hfin.1 hfin.2.1, hfin.2.2]
    rfl
  have hskip := execLoop_skip
    (execCtx codec true true cx dest ⟨exp, some ⟨a, rc⟩, rl⟩ env)
    a.toNat 1 1 (fun u hu1 hu2 => hmidAll u hu1 (by omega))
  rw [exec_eq_loop_some codec true true cx dest vd _ env hdv]
  dsimp only
  rw [hTT, show 1 + a.toNat = a.toNat + 1 by omega] at *
  rw [hskip, hE]
  dsimp only
  refine ⟨rfl, by omega, by omega⟩

/-- Environment for the C2 witness: 503 on tries 1 and 2, then 200. -/
def wStatus : Nat → Int := fun t => if t < 3 then 503 else 200

/-- Bodies for the C2 witness. -/
def wBody : Nat → String := fun _ => "x"

/-- Per-try environment for the C2 witness. -/
def wEnv : Nat → TryEnv := fun t => ⟨none, .ok (wStatus t) (wBody t)⟩

/-- Witness for C2: attempts = 2, responses 503, 503, 200: three tries,
three sends, no error. -/
theorem retry_then_success_witness :
    (exec rawCodec true true false DestVal.absent false
      (some ⟨[200], some ⟨2, [503]⟩, false⟩) wEnv).error = none ∧
    (exec rawCodec true true false DestVal.absent false
      (some ⟨[200], some ⟨2, [503]⟩, false⟩) wEnv).tries = 3 ∧
    (exec rawCodec true true false DestVal.absent false
      (some ⟨[200], some ⟨2, [503]⟩, false⟩) wEnv).sends = 3 := by
  have h := retry_then_success rawCodec false false false DestVal.absent
    [200] [503] 2 wStatus wBody wEnv (by decide) (by decide)
    (fun t _ _ => rfl)
    (by
      intro t h1 h2
      have h3 : t < 3 := by omega
      simp [wStatus, h3])
    (by decide) (Or.inl rfl)
  exact ⟨h.1, h.2.1.trans (by decide), h.2.2.trans (by decide)⟩

/-- Counterexample to C1 as stated.  Scenario A: attempts = 1 with retry
set {503} and expected set {503}; the server answers 503 on every try, so
every response is retry-classified, yet the call returns no error after the
promised 2 tries (on the final try the retry set is cleared and 503 is
classified as expected).  Scenario B: attempts = 0 with a configured retry
set {503}; the single response is retry-classified, yet the resulting
error is a bare unexpected-status error, not retries-exhausted. -/
theorem retries_exhausted_cex :
    ((exec rawCodec true true false DestVal.absent false
        (some ⟨[503], some ⟨1, [503]⟩, false⟩)
        (fun _ => ⟨none, .ok 503 "down"⟩)).error = none ∧
     (exec rawCodec true true false DestVal.absent false
        (some ⟨[503], some ⟨1, [503]⟩, false⟩)
        (fun _ => ⟨none, .ok 503 "down"⟩)).tries = 2) ∧
    ((exec rawCodec true true false DestVal.absent false
        (some ⟨[], some ⟨0, [503]⟩, false⟩)
        (fun _ => ⟨none, .ok 503 "down"⟩)).error =
      some (.unexpectedStatus [200] 503 "down") ∧
     (exec rawCodec true true false DestVal.absent false
        (some ⟨[], some ⟨0, [503]⟩, false⟩)
        (fun _ => ⟨none, .ok 503 "down"⟩)).tries = 1) := by
  decide

/-- C1 (amended): the retry-code set passed to the executor equals the
configured set on every try except the last, where it is empty; and when
attempts > 0, every try answers a retry-classified status, and the last
status is outside the effective expected set, exactly `1 + attempts` tries
and sends occur and the call fails with retries-exhausted wrapping an
unexpected-status error whose message contains the diagnostic body text
of the final response. -/
theorem retries_exhausted_policy (codec : Codec) (cx rl vd : Bool)
    (dest : DestVal) (exp rc : List Int) (a : Int)
    (status : Nat → Int) (body : Nat → String) (env : Nat → TryEnv)
    (ha : 0 < a)
    (hdv : (vd && !dest.isValidPtr) = false)
    (henv : ∀ t, 1 ≤ t → t ≤ 1 + a.toNat → env t = ⟨none, .ok (status t) (body t)⟩)
    (hretry : ∀ t, 1 ≤ t → t ≤ 1 + a.toNat → status t ∈ rc)
    (hlast : status (1 + a.toNat) ∉ effExpected exp) :
    (∀ t, 1 ≤ t → t < 1 + a.toNat → retryCodesAt (1 + a.toNat) rc t = rc) ∧
    retryCodesAt (1 + a.toNat) rc (1 + a.toNat) = [] ∧
    exec codec true true cx dest vd (some ⟨exp, some ⟨a, rc⟩, rl⟩) env =
      ⟨some (.retriesExhausted a (.unexpectedStatus (effExpected exp)
          (status (1 + a.toNat)) (diagnosticBody codec (body (1 + a.toNat))))),
       some ⟨exp, some ⟨a, rc⟩, rl⟩, 1 + a.toNat, 1 + a.toNat⟩ ∧
    (∃ pre, (Err.retriesExhausted a (.unexpectedStatus (effExpected exp)
        (status (1 + a.toNat)) (diagnosticBody codec (body (1 + a.toNat))))).msg =
      pre ++ diagnosticBody codec (body (1 + a.toNat))) ∧
    (∃ suf, (Err.retriesExhausted a (.unexpectedStatus (effExpected exp)
        (status (1 + a.toNat)) (diagnosticBody codec (body (1 + a.toNat))))).msg =
      "retries exhausted after " ++ suf) := by
  have hca : clampAttempts a = a := clampAttempts_of_nonneg a ha.le
  have hTT : (execCtx codec true true cx dest ⟨exp, some ⟨a, rc⟩, rl⟩ env).totalTries =
      1 + a.toNat := by
    rw [execCtx_totalTries, hca]
  refine ⟨fun t h1 h2 => by unfold retryCodesAt; rw [if_neg (by omega)],
    by unfold retryCodesAt; rw [if_pos rfl], ?_, ?_, ?_⟩
  · have hmidAll : ∀ u, 1 ≤ u → u < 1 + a.toNat →
        attemptAt (execCtx codec true true cx dest ⟨exp, some ⟨a, rc⟩, rl⟩ env) u =
          ⟨true, none, true, false, false⟩ := by
      intro u hu1 hu2
      rw [execCtx_attemptAt, hca, henv u hu1 (by omega)]
      have hrcAt : retryCodesAt (1 + a.toNat) rc u = rc := by
        unfold retryCodesAt
        rw [if_neg (by omega)]
      rw [hrcAt, doAttempt_present]
      exact doSendPhase_retry codec dest.present _ rc (status u) (body u)
        (hretry u hu1 (by omega))
    have hfin : attemptAt (execCtx codec true true cx dest ⟨exp, some ⟨a, rc⟩, rl⟩ env)
        (1 + a.toNat) =
        ⟨false, some (.unexpectedStatus (effExpected exp) (status (1 + a.toNat))
          (diagnosticBody codec (body (1 + a.toNat)))), true, true, false⟩ := by
      rw [execCtx_attemptAt, hca, henv (1 + a.toNat) (by omega) (Nat.le_refl _)]
      have hrcAt : retryCodesAt (1 + a.toNat) rc (1 + a.toNat) = [] := by
        unfold retryCodesAt
        rw [if_pos rfl]
      rw [hrcAt, doAttempt_present]
      exact doSendPhase_unexpected codec dest.present (effExpected exp) []
        (status (1 + a.toNat)) (body (1 + a.toNat)) (by simp) hlast
    have hE : execLoop (execCtx codec true true cx dest ⟨exp, some ⟨a, rc⟩, rl⟩ env)
        (1 + a.toNat) 1 =
        ⟨some (.retriesExhausted a (.unexpectedStatus (effExpected exp)
          (status (1 + a.toNat)) (diagnosticBody codec (body (1 + a.toNat))))), 1, 1⟩ := by
      have he : (attemptAt (execCtx codec true true cx dest ⟨exp, some ⟨a, rc⟩, rl⟩ env)
          (1 + a.toNat)).error =
          some (.unexpectedStatus (effExpected exp) (status (1 + a.toNat))
            (diagnosticBody codec (body (1 + a.toNat)))) := by
        rw [hfin]
      have hs : (attemptAt (execCtx codec true true cx dest ⟨exp, some ⟨a, rc⟩, rl⟩ env)
          (1 + a.toNat)).sent = true := by
        rw [hfin]
      rw [execLoop_step_err _ _ 0 _ he, hs]
      have hw : wrapErr (execCtx codec true true cx dest ⟨exp, some ⟨a, rc⟩, rl⟩ env).attempts
          (.unexpectedStatus (effExpected exp) (status (1 + a.toNat))
            (diagnosticBody codec (body (1 + a.toNat)))) =
          .retriesExhausted a (.unexpectedStatus (effExpected exp) (status (1 + a.toNat))
            (diagnosticBody codec (body (1 + a.toNat)))) := by
        rw [execCtx_attempts, hca, wrapErr, if_pos ha]
      rw [hw]
      rfl
    have hskip := execLoop_skip
      (execCtx codec true true cx dest ⟨exp, some ⟨a, rc⟩, rl⟩ env)
      a.toNat 1 1 (fun u hu1 hu2 => hmidAll u hu1 (by omega))
    have hno : normalizeOptions ⟨exp, some ⟨a, rc⟩, rl⟩ =
        (⟨exp, some ⟨a, rc⟩, rl⟩ : Options) := by
      simp [normalizeOptions, hca]
    rw [exec_eq_loop_some codec true true cx dest vd _ env hdv, hno]
    rw [hTT, show 1 + a.toNat = a.toNat + 1 by omega] at *
    rw [hskip, hE]
    dsimp only
    simp only [ExecOutcome.mk.injEq]
    refine ⟨trivial, trivial, by omega, by omega⟩
  · refine ⟨"retries exhausted after " ++ toString a ++ " attempt(s): " ++
      ("expected status code(s) " ++ intListGoFmt (effExpected exp) ++ " but got " ++
        toString (status (1 + a.toNat)) ++ ". body: "), ?_⟩
    simp [Err.msg, String.append_assoc]
  · refine ⟨toString a ++ " attempt(s): " ++
      ("expected status code(s) " ++ intListGoFmt (effExpected exp) ++ " but got " ++
        toString (status (1 + a.toNat)) ++ ". body: " ++
        diagnosticBody codec (body (1 + a.toNat))), ?_⟩
    simp [Err.msg, String.append_assoc]

/-- Witness for the amended C1: attempts = 1, server always 503 with body
"down": two tries, two sends, retries-exhausted wrapping the
unexpected-status error carrying the body. -/
theorem retries_exhausted_policy_witness :
    exec rawCodec true true false DestVal.absent false
        (some ⟨[], some ⟨1, [503]⟩, false⟩) (fun _ => ⟨none, .ok 503 "down"⟩) =
      ⟨some (.retriesExhausted 1 (.unexpectedStatus [200] 503 "down")),
       some ⟨[], some ⟨1, [503]⟩, false⟩, 2, 2⟩ := by
  have h := retries_exhausted_policy rawCodec false false false DestVal.absent
    [] [503] 1 (fun _ => 503) (fun _ => "down") (fun _ => ⟨none, .ok 503 "down"⟩)
    (by decide) (by decide) (fun t _ _ => rfl) (by intro t _ _; simp) (by decide)
  exact h.2.2.1.trans (by decide)

/-- Counterexample to C3 as stated: a call with `Retry.Attempts = -1`
returns with the caller-side options changed — the attempts count has been
clamped to 0 in place through the caller-side pointer (and a nil `Retry`
would likewise be replaced by a fresh config). -/
theorem options_immutable_cex :
    (exec rawCodec true true false DestVal.absent false
        (some ⟨[200], some ⟨-1, [503]⟩, false⟩)
        (fun _ => ⟨none, .ok 200 ""⟩)).finalOpts ≠
      some ⟨[200], some ⟨-1, [503]⟩, false⟩ ∧
    (exec rawCodec true true false DestVal.absent false
        (some ⟨[200], none, false⟩)
        (fun _ => ⟨none, .ok 200 ""⟩)).finalOpts ≠
      some ⟨[200], none, false⟩ := by
  decide

/-- C3 (amended): the attempt loop normalizes the caller-side options in
place: after a call (with destination validation passing), the
caller-visible options are exactly the normalized options — a nil retry
config replaced by a fresh zero config and a negative attempts count
clamped to 0 — and nothing else changes: the expected codes, the rate
limiter and the retry status codes are preserved, and options whose retry
config is present with nonnegative attempts are returned completely
unchanged; a nil options pointer leaves nothing caller-visible. -/
theorem options_normalized_in_place (codec : Codec) (cp rp cx vd : Bool)
    (dest : DestVal) (o : Options) (env : Nat → TryEnv)
    (hdv : (vd && !dest.isValidPtr) = false) :
    (exec codec cp rp cx dest vd (some o) env).finalOpts =
      some (normalizeOptions o) ∧
    (normalizeOptions o).expectedStatusCodes = o.expectedStatusCodes ∧
    (normalizeOptions o).rateLimiterPresent = o.rateLimiterPresent ∧
    (normalizeOptions o).retry =
      some ⟨clampAttempts (o.retry.getD ⟨0, []⟩).attempts,
        (o.retry.getD ⟨0, []⟩).retryStatusCodes⟩ ∧
    (∀ r, o.retry = some r → 0 ≤ r.attempts → normalizeOptions o = o) ∧
    (exec codec cp rp cx dest vd none env).finalOpts = none := by
  refine ⟨?_, rfl, rfl, rfl, ?_, ?_⟩
  · rw [exec_eq_loop_some codec cp rp cx dest vd o env hdv]
  · intro r hr hge
    obtain ⟨ra, rcodes⟩ := r
    obtain ⟨oexp, oretry, orl⟩ := o
    simp only [Options.mk.injEq] at hr ⊢
    subst hr
    simp [normalizeOptions, clampAttempts_of_nonneg ra hge]
  · rw [exec_eq_loop codec cp rp cx dest vd none env hdv]
    rfl

/-- Witness for the amended C3: a nil retry config is replaced in place by
the fresh zero config; every other field is preserved. -/
theorem options_normalized_in_place_witness :
    (exec rawCodec true true false DestVal.absent false
        (some ⟨[201, 202], none, true⟩)
        (fun _ => ⟨none, .ok 201 ""⟩)).finalOpts =
      some (normalizeOptions ⟨[201, 202], none, true⟩) :=
  (options_normalized_in_place rawCodec true true false false DestVal.absent
    ⟨[201, 202], none, true⟩ (fun _ => ⟨none, .ok 201 ""⟩) (by decide)).1

end BHttp
